import Mathlib

/-!
Verification of the GroqAPI C++ runtime wrapper (IOP container parsing,
tensor-layout transcoding, and the SimpleRunner invocation protocol)
against its natural-language specification.

The embedding mirrors the C++ sources:
  * `IOP.cpp` / `IOP.hpp`  — `TensorLayout`, `IODescriptor`, `EntryPoint`,
    `Program`, `IOP` and their constructors built on the external groqio
    parse capability (each call returns a `Status`; the `GROQOK` macro
    throws on non-success).
  * `SimpleRunner.cpp` / `SimpleRunner.hpp` — buffer binding and the
    transcode–invoke–transcode protocol.

External groqio calls are modelled by oracle structures that record, for
every call the C++ code can issue, the status it returns (and the value it
yields on success).  C++ exceptions are modelled by `Except RtError`;
since a C++ exception aborts the member function before any subsequent
mutation, functions that mutate object state return the pair of the
outcome and the (possibly unchanged) state.
-/

namespace Groq

/-- groqio `Status`; `GROQ_SUCCESS` is 0. -/
abbrev Status := Nat

/-- Errors thrown by the wrapper layer.  Each constructor corresponds to one
throw site in the C++ source and carries exactly the data that the thrown
message string interpolates:
  * `sizeMismatchPlain`   — `TensorLayout::toHost`: `"Size mismatch"` (no sizes);
  * `inputSizeMismatch`   — `TensorLayout::fromHost` first check;
  * `outputSizeMismatch`  — `TensorLayout::fromHost` second check;
  * `badDataSize`         — `SimpleRunner::addInputBuffer` / `addOutputBuffer`;
  * `outOfRange`          — `std::vector::at` / `std::out_of_range`;
  * `groqError`           — the `GROQOK` macro on a non-success status. -/
inductive RtError where
  | sizeMismatchPlain : RtError
  | inputSizeMismatch (expected got : Nat) : RtError
  | outputSizeMismatch (expected got : Nat) : RtError
  | badDataSize (expected got : Nat) : RtError
  | outOfRange : RtError
  | groqError (status : Status) : RtError
deriving Repr, DecidableEq

/-- The `what()` string of each thrown exception, as built by the C++ code. -/
def RtError.message : RtError → String
  | .sizeMismatchPlain => "Size mismatch"
  | .inputSizeMismatch e g =>
      "Input size mismatch; expected " ++ toString e ++ " got " ++ toString g
  | .outputSizeMismatch e g =>
      "Output size mismatch; expected " ++ toString e ++ " got " ++ toString g
  | .badDataSize e g =>
      "Bad data size; expected " ++ toString e ++ " got " ++ toString g
  | .outOfRange => "out of range"
  | .groqError s => "Error " ++ toString s

/-- The (expected, actual) byte sizes an error reports, when it reports any. -/
def RtError.sizeInfo : RtError → Option (Nat × Nat)
  | .inputSizeMismatch e g => some (e, g)
  | .outputSizeMismatch e g => some (e, g)
  | .badDataSize e g => some (e, g)
  | _ => none

/-- Whether an error is one of the size-contract violations. -/
def RtError.isSizeMismatch : RtError → Bool
  | .sizeMismatchPlain => true
  | .inputSizeMismatch _ _ => true
  | .outputSizeMismatch _ _ => true
  | .badDataSize _ _ => true
  | _ => false

/-- The `GROQOK` macro: check a groqio status, throwing on non-success. -/
def GROQOK (s : Status) : Except RtError Unit :=
  if s ≠ 0 then .error (.groqError s) else .ok ()

/-- Models `std::vector::at`: bounds-checked access, throwing `std::out_of_range`. -/
def listAt (xs : List α) (i : Nat) : Except RtError α :=
  match xs[i]? with
  | some x => .ok x
  | none => .error .outOfRange

/-- Whether a fallible computation completed without throwing. -/
def exOk : Except RtError α → Bool
  | .ok _ => true
  | .error _ => false

/-- groq::TensorLayout, the parsed per-tensor metadata (`IOP.hpp`).
`iodSize` is the device-side ("IO") size shared with the whole descriptor;
`size` is the host-side byte size. -/
structure TensorLayout where
  name : String
  iodSize : Nat
  size : Nat
  format : Int
  dimensions : List Nat
deriving Repr, DecidableEq

/-- Getter `TensorLayout::getHostSize`. -/
def TensorLayout.getHostSize (L : TensorLayout) : Nat := L.size

/-- Getter `TensorLayout::getIoSize`. -/
def TensorLayout.getIoSize (L : TensorLayout) : Nat := L.iodSize

/-- The two size checks performed by `TensorLayout::fromHost` before the
external conversion call, in source order. -/
def TensorLayout.fromHostCheck (L : TensorLayout) (inputSize outputSize : Nat) :
    Except RtError Unit :=
  if inputSize ≠ L.getHostSize then
    .error (.inputSizeMismatch L.getHostSize inputSize)
  else if outputSize ≠ L.getIoSize then
    .error (.outputSizeMismatch L.getIoSize outputSize)
  else .ok ()

/-- The two size checks performed by `TensorLayout::toHost` before the
external conversion call, in source order; both throw the bare
`"Size mismatch"` message. -/
def TensorLayout.toHostCheck (L : TensorLayout) (inputSize outputSize : Nat) :
    Except RtError Unit :=
  if inputSize ≠ L.getIoSize then .error .sizeMismatchPlain
  else if outputSize ≠ L.getHostSize then .error .sizeMismatchPlain
  else .ok ()

/-- The external groqio layout-conversion capability
(`groq_tensor_layout_from_host` / `groq_tensor_layout_to_host`): given the
layout, the source bytes and the two declared sizes, it returns a status
and the bytes the destination buffer holds after the call. -/
structure ConvCap where
  fromHostConv : TensorLayout → List Nat → Nat → Nat → Status × List Nat
  toHostConv : TensorLayout → List Nat → Nat → Nat → Status × List Nat

deriving instance DecidableEq for Except

/-- Outcome of one wrapper transcode call: the thrown-or-ok result, the
destination buffer contents after the call, and whether the external
conversion capability was actually invoked. -/
structure TranscodeOut where
  result : Except RtError Unit
  dest : List Nat
  convCalled : Bool
deriving Repr, DecidableEq

/-- Method `TensorLayout::fromHost`: size checks, then delegate to the external
conversion via `GROQOK`.  A failed check throws before the conversion is
called, leaving the destination buffer as it was. -/
def TensorLayout.fromHost (L : TensorLayout) (cap : ConvCap) (input : List Nat)
    (inputSize : Nat) (dest : List Nat) (outputSize : Nat) : TranscodeOut :=
  match L.fromHostCheck inputSize outputSize with
  | .error e => ⟨.error e, dest, false⟩
  | .ok () =>
      let r := cap.fromHostConv L input inputSize outputSize
      match GROQOK r.1 with
      | .error e => ⟨.error e, r.2, true⟩
      | .ok () => ⟨.ok (), r.2, true⟩

/-- Method `TensorLayout::toHost`: mirror image of `fromHost`. -/
def TensorLayout.toHost (L : TensorLayout) (cap : ConvCap) (input : List Nat)
    (inputSize : Nat) (dest : List Nat) (outputSize : Nat) : TranscodeOut :=
  match L.toHostCheck inputSize outputSize with
  | .error e => ⟨.error e, dest, false⟩
  | .ok () =>
      let r := cap.toHostConv L input inputSize outputSize
      match GROQOK r.1 with
      | .error e => ⟨.error e, r.2, true⟩
      | .ok () => ⟨.ok (), r.2, true⟩

/-- Modelled from the spec: the external layout conversion is a black box
whose device-imposed transform is exactly invertible (§8 round-trip, "modulo
device-imposed layout transform being exactly invertible").  The conversion
code itself lives in the external groqio library, not in this repository. -/
def RoundTripCap (cap : ConvCap) : Prop :=
  ∀ (L : TensorLayout) (B : List Nat), B.length = L.getHostSize →
    (cap.fromHostConv L B L.getHostSize L.getIoSize).1 = 0 →
    (cap.toHostConv L (cap.fromHostConv L B L.getHostSize L.getIoSize).2
        L.getIoSize L.getHostSize).1 = 0 →
    (cap.toHostConv L (cap.fromHostConv L B L.getHostSize L.getIoSize).2
        L.getIoSize L.getHostSize).2 = B

/-!
The native groqio parse capability, as consumed by the constructors in
`IOP.cpp`.  Each `st...` field is the status the corresponding groqio call
returns (checked through `GROQOK`); the plain fields are the values the
call yields on success.  Functions indexed by `Nat` model the `nth`-indexed
enumeration calls.
-/

/-- Native view of one tensor layout (`::TensorLayout` handle). -/
structure NTensorLayout where
  stName : Status
  name : String
  stNumDims : Status
  nDims : Nat
  stSize : Status
  size : Nat
  stFormat : Status
  format : Int
  stDim : Nat → Status
  dims : Nat → Nat

/-- Native view of one IO descriptor (`::IODescriptor` handle). -/
structure NIODescriptor where
  stNumLayouts : Status
  nLayouts : Nat
  stNthLayout : Nat → Status
  layouts : Nat → NTensorLayout

/-- Native view of one entrypoint (`::EntryPoint` handle). -/
structure NEntryPoint where
  stName : Status
  name : String
  stInputIod : Status
  inputIod : NIODescriptor
  stOutputIod : Status
  outputIod : NIODescriptor
  stInputSize : Status
  inputSize : Nat
  stOutputSize : Status
  outputSize : Nat

/-- Native view of one program (`::Program` handle). -/
structure NProgram where
  stNumEp : Status
  nEp : Nat
  stNthEp : Nat → Status
  entrypoints : Nat → NEntryPoint

/-- Native view of a whole IOP container (`::IOP` handle), including the
`groq_iop_init` status for the raw byte buffer. -/
structure NIop where
  stInit : Status
  stNumPrograms : Status
  nPrograms : Nat
  stNthProgram : Nat → Status
  stProgName : Nat → Status
  progName : Nat → String
  programs : Nat → NProgram

/-- groq::IODescriptor: ordered tensor layouts plus the aggregate size. -/
structure IODescriptor where
  layouts : List TensorLayout
  size : Nat
deriving Repr, DecidableEq

/-- Getter `IODescriptor::getSize`. -/
def IODescriptor.getSize (d : IODescriptor) : Nat := d.size

/-- Getter `IODescriptor::getTensorLayouts`. -/
def IODescriptor.getTensorLayouts (d : IODescriptor) : List TensorLayout := d.layouts

/-- groq::EntryPoint: name plus one input and one output descriptor. -/
structure EntryPoint where
  name : String
  input : IODescriptor
  output : IODescriptor
deriving Repr, DecidableEq

/-- groq::Program: name plus ordered entrypoints. -/
structure Program where
  entrypoints : List EntryPoint
  name : String
deriving Repr, DecidableEq

/-- groq::IOP: the parsed container (ordered programs). -/
structure IOP where
  programs : List Program
deriving Repr, DecidableEq

/-- An indexed `for` loop of fallible steps: runs `f 0, f 1, ..., f (n-1)` in
order, stopping at the first failure and collecting results in order.  This
is the loop shape of every constructor in `IOP.cpp`. -/
def buildUpTo (f : Nat → Except RtError α) : Nat → Except RtError (List α)
  | 0 => .ok []
  | n + 1 => do
    let xs ← buildUpTo f n
    let x ← f n
    pure (xs ++ [x])

/-- The `TensorLayout` constructor (`IOP.cpp`): reads dimension count, host
size and format, then each dimension, each through `GROQOK`. -/
def TensorLayout.build (nl : NTensorLayout) (name : String) (iodSize : Nat) :
    Except RtError TensorLayout := do
  GROQOK nl.stNumDims
  GROQOK nl.stSize
  GROQOK nl.stFormat
  let dims ← buildUpTo (fun nth => do
    GROQOK (nl.stDim nth)
    pure (nl.dims nth)) nl.nDims
  pure { name := name, iodSize := iodSize, size := nl.size, format := nl.format,
         dimensions := dims }

/-- The `IODescriptor` constructor (`IOP.cpp`): reads the layout count, then
for each index the layout handle and its name, then builds the
`TensorLayout`, passing the descriptor's aggregate `size` as its `iodSize`. -/
def IODescriptor.build (nd : NIODescriptor) (size : Nat) :
    Except RtError IODescriptor := do
  GROQOK nd.stNumLayouts
  let layouts ← buildUpTo (fun nth => do
    GROQOK (nd.stNthLayout nth)
    GROQOK (nd.layouts nth).stName
    TensorLayout.build (nd.layouts nth) (nd.layouts nth).name size) nd.nLayouts
  pure { layouts := layouts, size := size }

/-- The `EntryPoint` constructor (`IOP.cpp`): reads both descriptor handles
and both aggregate sizes, then builds the input and output descriptors. -/
def EntryPoint.build (ne : NEntryPoint) (name : String) :
    Except RtError EntryPoint := do
  GROQOK ne.stInputIod
  GROQOK ne.stOutputIod
  GROQOK ne.stInputSize
  GROQOK ne.stOutputSize
  let input ← IODescriptor.build ne.inputIod ne.inputSize
  let output ← IODescriptor.build ne.outputIod ne.outputSize
  pure { name := name, input := input, output := output }

/-- The `Program` constructor (`IOP.cpp`): reads the entrypoint count, then
for each index the entrypoint handle and its name, then builds it. -/
def Program.build (np : NProgram) (name : String) : Except RtError Program := do
  GROQOK np.stNumEp
  let eps ← buildUpTo (fun nth => do
    GROQOK (np.stNthEp nth)
    GROQOK (np.entrypoints nth).stName
    EntryPoint.build (np.entrypoints nth) (np.entrypoints nth).name) np.nEp
  pure { entrypoints := eps, name := name }

/-- Method `IOP::initialize` (`IOP.cpp`): `groq_iop_init` on the copied byte buffer,
then the program count, then for each index the program handle and name and
the `Program` constructor.  A C++ exception escaping here aborts the `IOP`
constructor, so no partially-built tree is ever exposed: the result type
carries a whole tree or an error, never a partial tree. -/
def IOP.initTree (ni : NIop) : Except RtError IOP := do
  GROQOK ni.stInit
  GROQOK ni.stNumPrograms
  let ps ← buildUpTo (fun nth => do
    GROQOK (ni.stNthProgram nth)
    GROQOK (ni.stProgName nth)
    Program.build (ni.programs nth) (ni.progName nth)) ni.nPrograms
  pure { programs := ps }

/-- The pure value `TensorLayout.build` produces when every status it checks
is success. -/
def TensorLayout.parseOk (nl : NTensorLayout) (name : String) (iodSize : Nat) :
    TensorLayout :=
  { name := name, iodSize := iodSize, size := nl.size, format := nl.format,
    dimensions := (List.range nl.nDims).map nl.dims }

/-- The pure value `IODescriptor.build` produces when every status is
success. -/
def IODescriptor.parseOk (nd : NIODescriptor) (size : Nat) : IODescriptor :=
  { layouts := (List.range nd.nLayouts).map
      (fun nth => TensorLayout.parseOk (nd.layouts nth) (nd.layouts nth).name size)
    size := size }

/-- The pure value `EntryPoint.build` produces when every status is
success. -/
def EntryPoint.parseOk (ne : NEntryPoint) (name : String) : EntryPoint :=
  { name := name
    input := IODescriptor.parseOk ne.inputIod ne.inputSize
    output := IODescriptor.parseOk ne.outputIod ne.outputSize }

/-- The pure value `Program.build` produces when every status is success. -/
def Program.parseOk (np : NProgram) (name : String) : Program :=
  { entrypoints := (List.range np.nEp).map
      (fun nth => EntryPoint.parseOk (np.entrypoints nth) (np.entrypoints nth).name)
    name := name }

/-- The pure tree `IOP.initTree` produces when every status is success. -/
def IOP.parseOk (ni : NIop) : IOP :=
  { programs := (List.range ni.nPrograms).map
      (fun nth => Program.parseOk (ni.programs nth) (ni.progName nth)) }

/-- All statuses that `TensorLayout.build` checks are success. -/
def NTensorLayout.ok (nl : NTensorLayout) : Prop :=
  nl.stNumDims = 0 ∧ nl.stSize = 0 ∧ nl.stFormat = 0 ∧ ∀ i < nl.nDims, nl.stDim i = 0

/-- All statuses that `IODescriptor.build` checks are success. -/
def NIODescriptor.ok (nd : NIODescriptor) : Prop :=
  nd.stNumLayouts = 0 ∧ ∀ i < nd.nLayouts,
    nd.stNthLayout i = 0 ∧ (nd.layouts i).stName = 0 ∧ (nd.layouts i).ok

/-- All statuses that `EntryPoint.build` checks are success. -/
def NEntryPoint.ok (ne : NEntryPoint) : Prop :=
  ne.stInputIod = 0 ∧ ne.stOutputIod = 0 ∧ ne.stInputSize = 0 ∧
    ne.stOutputSize = 0 ∧ ne.inputIod.ok ∧ ne.outputIod.ok

/-- All statuses that `Program.build` checks are success. -/
def NProgram.ok (np : NProgram) : Prop :=
  np.stNumEp = 0 ∧ ∀ i < np.nEp,
    np.stNthEp i = 0 ∧ (np.entrypoints i).stName = 0 ∧ (np.entrypoints i).ok

/-- All statuses that `IOP.initTree` checks are success: every parse call the
construction issues reports success. -/
def NIop.ok (ni : NIop) : Prop :=
  ni.stInit = 0 ∧ ni.stNumPrograms = 0 ∧ ∀ i < ni.nPrograms,
    ni.stNthProgram i = 0 ∧ ni.stProgName i = 0 ∧ (ni.programs i).ok

instance (nl : NTensorLayout) : Decidable nl.ok := by
  unfold NTensorLayout.ok; infer_instance

instance (nd : NIODescriptor) : Decidable nd.ok := by
  unfold NIODescriptor.ok; infer_instance

instance (ne : NEntryPoint) : Decidable ne.ok := by
  unfold NEntryPoint.ok; infer_instance

instance (np : NProgram) : Decidable np.ok := by
  unfold NProgram.ok; infer_instance

instance (ni : NIop) : Decidable ni.ok := by
  unfold NIop.ok; infer_instance

/-- groq::SimpleRunner state (`SimpleRunner.hpp`).  The C++ object holds a
reference to the immutable `IOP` and recomputes `inputTensorLayouts()` /
`outputTensorLayouts()` on each use; since the parsed tree never changes,
the runner here carries the two layout vectors those accessors denote.
`tspInputSize` / `tspOutputSize` are the values `groq_program_get_input_size`
and `groq_program_get_output_size` returned at construction.  Unbound slots
hold `none` (C++ `nullptr`) and size 0, as set by the constructor's
member-initializer list. -/
structure SimpleRunner where
  inputLayouts : List TensorLayout
  outputLayouts : List TensorLayout
  tspInputSize : Nat
  tspOutputSize : Nat
  inputBuffers : List (Option Nat)
  outputBuffers : List (Option Nat)
  inputSizes : List Nat
  outputSizes : List Nat
deriving Repr, DecidableEq

/-- Statuses of the two `groq_allocate_..._iobuffer_array` calls in the
`SimpleRunner` constructor. -/
structure AllocCap where
  stAllocInputs : Status
  stAllocOutputs : Status

/-- The `SimpleRunner` constructor: navigates to the chosen program and
entrypoint through the bounds-checked accessors, sizes the binding vectors
(`numInputs` buffers as `nullptr`, sizes as 0), then allocates the two device
buffer arrays through `GROQOK`. -/
def SimpleRunner.make (iop : IOP) (programIndex entrypointIndex : Nat)
    (tspInputSize tspOutputSize : Nat) (alloc : AllocCap) :
    Except RtError SimpleRunner := do
  let program ← listAt iop.programs programIndex
  let ep ← listAt program.entrypoints entrypointIndex
  GROQOK alloc.stAllocInputs
  GROQOK alloc.stAllocOutputs
  pure { inputLayouts := ep.input.layouts
         outputLayouts := ep.output.layouts
         tspInputSize := tspInputSize
         tspOutputSize := tspOutputSize
         inputBuffers := List.replicate ep.input.layouts.length none
         outputBuffers := List.replicate ep.output.layouts.length none
         inputSizes := List.replicate ep.input.layouts.length 0
         outputSizes := List.replicate ep.output.layouts.length 0 }

/-- Method `SimpleRunner::addInputBuffer`: look the layout up with `at(index)`,
check `size == layout.getHostSize()`, then store pointer and size with
`at(index)` writes.  A thrown exception leaves the object as it was at the
throw point, so the function returns the outcome with the state. -/
def SimpleRunner.addInputBuffer (r : SimpleRunner) (buffer : Nat) (size : Nat)
    (index : Nat) : Except RtError Unit × SimpleRunner :=
  match listAt r.inputLayouts index with
  | .error e => (.error e, r)
  | .ok layout =>
    if size ≠ layout.getHostSize then
      (.error (.badDataSize layout.getHostSize size), r)
    else
      match listAt r.inputBuffers index with
      | .error e => (.error e, r)
      | .ok _ =>
        let r1 := { r with inputBuffers := r.inputBuffers.set index (some buffer) }
        match listAt r1.inputSizes index with
        | .error e => (.error e, r1)
        | .ok _ => (.ok (), { r1 with inputSizes := r1.inputSizes.set index size })

/-- Method `SimpleRunner::addOutputBuffer`: mirror of `addInputBuffer` over the
output layouts and binding vectors. -/
def SimpleRunner.addOutputBuffer (r : SimpleRunner) (buffer : Nat) (size : Nat)
    (index : Nat) : Except RtError Unit × SimpleRunner :=
  match listAt r.outputLayouts index with
  | .error e => (.error e, r)
  | .ok layout =>
    if size ≠ layout.getHostSize then
      (.error (.badDataSize layout.getHostSize size), r)
    else
      match listAt r.outputBuffers index with
      | .error e => (.error e, r)
      | .ok _ =>
        let r1 := { r with outputBuffers := r.outputBuffers.set index (some buffer) }
        match listAt r1.outputSizes index with
        | .error e => (.error e, r1)
        | .ok _ => (.ok (), { r1 with outputSizes := r1.outputSizes.set index size })

/-- Calls `SimpleRunner::invoke` makes to the external device capability, in
the order they are issued.  `fromHostCall i` / `toHostCall i` are the
conversion calls `groq_tensor_layout_from_host` / `_to_host` issued through
`TensorLayout::fromHost` / `toHost` for tensor index `i`. -/
inductive Ev where
  | getInputHandle (i : Nat) : Ev
  | fromHostCall (i : Nat) : Ev
  | invokeDev : Ev
  | waitForCompletion (timeoutMs : Nat) : Ev
  | getOutputHandle (i : Nat) : Ev
  | toHostCall (i : Nat) : Ev
deriving Repr, DecidableEq

/-- The protocol phase an event belongs to: input transcoding (0), execute
(1), completion wait (2), output transcoding (3). -/
def Ev.phase : Ev → Nat
  | .getInputHandle _ => 0
  | .fromHostCall _ => 0
  | .invokeDev => 1
  | .waitForCompletion _ => 2
  | .getOutputHandle _ => 3
  | .toHostCall _ => 3

/-- Statuses reported by the external device capability for each call
`SimpleRunner::invoke` can issue. -/
structure DevOracle where
  getInputHandleSt : Nat → Status
  fromHostSt : Nat → Status
  invokeSt : Status
  waitSt : Status
  getOutputHandleSt : Nat → Status
  toHostSt : Nat → Status

/-- One iteration of the input loop of `SimpleRunner::invoke` for tensor
index `i`: look up the layout, the bound pointer and the recorded size with
`at(i)`, get the device data handle (`GROQOK`), then `layout.fromHost(input,
inputSizes.at(i), output, tspInputSize)` — whose size checks run before its
conversion call.  Returns the outcome and the external calls issued. -/
def SimpleRunner.inputStep (r : SimpleRunner) (o : DevOracle) (i : Nat) :
    Except RtError Unit × List Ev :=
  match listAt r.inputLayouts i, listAt r.inputBuffers i, listAt r.inputSizes i with
  | .ok layout, .ok _input, .ok inputSize =>
    if o.getInputHandleSt i ≠ 0 then
      (.error (.groqError (o.getInputHandleSt i)), [.getInputHandle i])
    else
      match layout.fromHostCheck inputSize r.tspInputSize with
      | .error e => (.error e, [.getInputHandle i])
      | .ok () =>
        if o.fromHostSt i ≠ 0 then
          (.error (.groqError (o.fromHostSt i)), [.getInputHandle i, .fromHostCall i])
        else (.ok (), [.getInputHandle i, .fromHostCall i])
  | _, _, _ => (.error .outOfRange, [])

/-- The input loop of `SimpleRunner::invoke` over the given tensor indices,
stopping at the first thrown error; collects the trace of external calls. -/
def SimpleRunner.inputPhase (r : SimpleRunner) (o : DevOracle) :
    List Nat → Except RtError Unit × List Ev
  | [] => (.ok (), [])
  | i :: rest =>
    match (r.inputStep o i).1 with
    | .error e => (.error e, (r.inputStep o i).2)
    | .ok () =>
      ((r.inputPhase o rest).1, (r.inputStep o i).2 ++ (r.inputPhase o rest).2)

/-- One iteration of the output loop of `SimpleRunner::invoke` for tensor
index `i`: look up the layout, the bound pointer and the recorded size with
`at(i)`, get the device data handle (`GROQOK`), then `layout.toHost(input,
layout.getIoSize(), output, outputSizes.at(i))`. -/
def SimpleRunner.outputStep (r : SimpleRunner) (o : DevOracle) (i : Nat) :
    Except RtError Unit × List Ev :=
  match listAt r.outputLayouts i, listAt r.outputBuffers i, listAt r.outputSizes i with
  | .ok layout, .ok _output, .ok outputSize =>
    if o.getOutputHandleSt i ≠ 0 then
      (.error (.groqError (o.getOutputHandleSt i)), [.getOutputHandle i])
    else
      match layout.toHostCheck layout.getIoSize outputSize with
      | .error e => (.error e, [.getOutputHandle i])
      | .ok () =>
        if o.toHostSt i ≠ 0 then
          (.error (.groqError (o.toHostSt i)), [.getOutputHandle i, .toHostCall i])
        else (.ok (), [.getOutputHandle i, .toHostCall i])
  | _, _, _ => (.error .outOfRange, [])

/-- The output loop of `SimpleRunner::invoke` over the given tensor indices,
stopping at the first thrown error; collects the trace of external calls. -/
def SimpleRunner.outputPhase (r : SimpleRunner) (o : DevOracle) :
    List Nat → Except RtError Unit × List Ev
  | [] => (.ok (), [])
  | i :: rest =>
    match (r.outputStep o i).1 with
    | .error e => (.error e, (r.outputStep o i).2)
    | .ok () =>
      ((r.outputPhase o rest).1, (r.outputStep o i).2 ++ (r.outputPhase o rest).2)

/-- Method `SimpleRunner::invoke`: transcode every declared input slot into the
device input buffer array, then `groq_invoke` and
`groq_wait_for_completion(completion, 30000)`, then transcode every declared
output slot back.  Each external call goes through `GROQOK`, so the first
non-success status aborts the remainder.  Returns the outcome and the full
ordered trace of external calls. -/
def SimpleRunner.invoke (r : SimpleRunner) (o : DevOracle) :
    Except RtError Unit × List Ev :=
  let tin := r.inputPhase o (List.range r.inputLayouts.length)
  match tin.1 with
  | .error e => (.error e, tin.2)
  | .ok () =>
    if o.invokeSt ≠ 0 then
      (.error (.groqError o.invokeSt), tin.2 ++ [.invokeDev])
    else if o.waitSt ≠ 0 then
      (.error (.groqError o.waitSt), tin.2 ++ [.invokeDev, .waitForCompletion 30000])
    else
      let tout := SimpleRunner.outputPhase r o (List.range r.outputLayouts.length)
      (tout.1, tin.2 ++ [.invokeDev, .waitForCompletion 30000] ++ tout.2)

/-- A layout and a conversion capability used to instantiate witnesses. -/
def sampleLayout : TensorLayout :=
  { name := "A", iodSize := 4, size := 2, format := 0, dimensions := [2] }

/-- A conversion capability used to instantiate witnesses: success status,
device bytes are the host bytes padded with zeros to the IO size, host bytes
are the first `hostSize` device bytes. -/
def sampleCap : ConvCap :=
  { fromHostConv := fun L B _ _ => (0, B ++ List.replicate (L.getIoSize - B.length) 0)
    toHostConv := fun L D _ _ => (0, D.take L.getHostSize) }

/-- A native tensor layout with all statuses success, used in witnesses. -/
def mkNl (name : String) (size : Nat) (dims : List Nat) : NTensorLayout :=
  { stName := 0, name := name, stNumDims := 0, nDims := dims.length, stSize := 0,
    size := size, stFormat := 0, format := 0, stDim := fun _ => 0,
    dims := fun i => dims.getD i 0 }

/-- A native descriptor with two tensor layouts, all statuses success. -/
def sampleNd : NIODescriptor :=
  { stNumLayouts := 0, nLayouts := 2, stNthLayout := fun _ => 0,
    layouts := fun i => if i = 0 then mkNl "A" 2 [2] else mkNl "B" 3 [3] }

/-- A native descriptor with one tensor layout, all statuses success. -/
def sampleNdOut : NIODescriptor :=
  { stNumLayouts := 0, nLayouts := 1, stNthLayout := fun _ => 0,
    layouts := fun _ => mkNl "C" 4 [4] }

/-- A native entrypoint over the two sample descriptors. -/
def sampleNe : NEntryPoint :=
  { stName := 0, name := "ep", stInputIod := 0, inputIod := sampleNd,
    stOutputIod := 0, outputIod := sampleNdOut, stInputSize := 0, inputSize := 8,
    stOutputSize := 0, outputSize := 8 }

/-- A native program with one entrypoint. -/
def sampleNp : NProgram :=
  { stNumEp := 0, nEp := 1, stNthEp := fun _ => 0, entrypoints := fun _ => sampleNe }

/-- A native container with one program whose every parse call succeeds. -/
def goodNi : NIop :=
  { stInit := 0, stNumPrograms := 0, nPrograms := 1, stNthProgram := fun _ => 0,
    stProgName := fun _ => 0, progName := fun _ => "prog",
    programs := fun _ => sampleNp }

/-- The sample container with a failing `groq_iop_init` call. -/
def badNi : NIop := { goodNi with stInit := 7 }

/-- A device oracle whose every call reports success. -/
def allOkOracle : DevOracle :=
  { getInputHandleSt := fun _ => 0, fromHostSt := fun _ => 0, invokeSt := 0,
    waitSt := 0, getOutputHandleSt := fun _ => 0, toHostSt := fun _ => 0 }

/-- A concrete input layout (host size 2, device-side size 8). -/
def sampleLin : TensorLayout :=
  { name := "A", iodSize := 8, size := 2, format := 0, dimensions := [2] }

/-- A concrete output layout (host size 4, device-side size 8). -/
def sampleLout : TensorLayout :=
  { name := "C", iodSize := 8, size := 4, format := 0, dimensions := [4] }

/-- A runner whose single input and output slots are bound with
correctly-sized buffers. -/
def boundRunner : SimpleRunner :=
  { inputLayouts := [sampleLin], outputLayouts := [sampleLout],
    tspInputSize := 8, tspOutputSize := 8, inputBuffers := [some 100],
    outputBuffers := [some 200], inputSizes := [2], outputSizes := [4] }

/-- The runner state the constructor produces for the parsed sample
container before any buffer is bound: two input slots and one output slot,
all unbound (`nullptr`, size 0). -/
def freshRunner : SimpleRunner :=
  { inputLayouts := (IODescriptor.parseOk sampleNd 8).layouts
    outputLayouts := (IODescriptor.parseOk sampleNdOut 8).layouts
    tspInputSize := 8
    tspOutputSize := 8
    inputBuffers := [none, none]
    outputBuffers := [none]
    inputSizes := [0, 0]
    outputSizes := [0] }

/-- A device oracle whose `groq_invoke` call reports a failure status. -/
def failOracle : DevOracle :=
  { getInputHandleSt := fun _ => 0, fromHostSt := fun _ => 0, invokeSt := 5,
    waitSt := 0, getOutputHandleSt := fun _ => 0, toHostSt := fun _ => 0 }

end Groq

namespace Groq

/-!
General lemmas about `GROQOK`, `exOk`, `Except` binds and `buildUpTo`.
-/

theorem GROQOK_eq_ok {s : Status} {u : Unit} : GROQOK s = .ok u ↔ s = 0 := by
  by_cases h : s = 0 <;> simp [GROQOK, h]

theorem exOk_GROQOK {s : Status} : exOk (GROQOK s) = true ↔ s = 0 := by
  by_cases h : s = 0 <;> simp [GROQOK, h, exOk]

theorem bind_ok_elim {x : Except RtError α} {f : α → Except RtError β} {b : β}
    (h : (x >>= f) = .ok b) : ∃ a, x = .ok a ∧ f a = .ok b := by
  cases x with
  | error e => simp [Bind.bind, Except.bind] at h
  | ok a => exact ⟨a, rfl, by simpa [Bind.bind, Except.bind] using h⟩

theorem bind_ok_intro {x : Except RtError α} {f : α → Except RtError β} {a : α}
    (hx : x = .ok a) : (x >>= f) = f a := by
  subst hx; rfl

theorem exOk_bind {x : Except RtError α} {f : α → Except RtError β} :
    exOk (x >>= f) = true ↔ ∃ a, x = .ok a ∧ exOk (f a) = true := by
  cases x with
  | error e => simp [Bind.bind, Except.bind, exOk]
  | ok a => simp [Bind.bind, Except.bind, exOk]

theorem ok_of_exOk {x : Except RtError α} (h : exOk x = true) : ∃ a, x = .ok a := by
  cases x with
  | error e => simp [exOk] at h
  | ok a => exact ⟨a, rfl⟩

theorem error_of_not_exOk {x : Except RtError α} (h : ¬ exOk x = true) :
    ∃ e, x = .error e := by
  cases x with
  | error e => exact ⟨e, rfl⟩
  | ok a => simp [exOk] at h

theorem buildUpTo_ok {f : Nat → Except RtError α} {g : Nat → α} :
    ∀ {n}, (∀ i < n, f i = .ok (g i)) → buildUpTo f n = .ok ((List.range n).map g) := by
  intro n
  induction n with
  | zero => intro _; rfl
  | succ n ih =>
    intro h
    rw [buildUpTo, bind_ok_intro (ih (fun i hi => h i (Nat.lt_succ_of_lt hi))),
      bind_ok_intro (h n (Nat.lt_succ_self n)), List.range_succ, List.map_append]
    rfl

theorem buildUpTo_exOk {f : Nat → Except RtError α} :
    ∀ {n}, exOk (buildUpTo f n) = true ↔ ∀ i < n, exOk (f i) = true := by
  intro n
  induction n with
  | zero => simp [buildUpTo, exOk]
  | succ n ih =>
    rw [buildUpTo]
    constructor
    · intro h
      obtain ⟨xs, hxs, h2⟩ := exOk_bind.mp h
      obtain ⟨x, hx, -⟩ := exOk_bind.mp h2
      intro i hi
      rcases Nat.lt_succ_iff_lt_or_eq.mp hi with hi | rfl
      · exact ih.mp (by rw [hxs]; rfl) i hi
      · rw [hx]; rfl
    · intro hall
      obtain ⟨xs, hxs⟩ := ok_of_exOk
        (ih.mpr (fun i hi => hall i (Nat.lt_succ_of_lt hi)))
      obtain ⟨x, hx⟩ := ok_of_exOk (hall n (Nat.lt_succ_self n))
      exact exOk_bind.mpr ⟨xs, hxs, exOk_bind.mpr ⟨x, hx, rfl⟩⟩

theorem buildUpTo_mem {f : Nat → Except RtError α} :
    ∀ {n xs x}, buildUpTo f n = .ok xs → x ∈ xs → ∃ i < n, f i = .ok x := by
  intro n
  induction n with
  | zero =>
    intro xs x h hm
    rw [buildUpTo] at h
    cases h
    simp at hm
  | succ n ih =>
    intro xs x h hm
    rw [buildUpTo] at h
    obtain ⟨ys, hys, h2⟩ := bind_ok_elim h
    obtain ⟨y, hy, h3⟩ := bind_ok_elim h2
    have hxs : xs = ys ++ [y] := by
      cases h3
      rfl
    subst hxs
    rcases List.mem_append.mp hm with hm | hm
    · obtain ⟨i, hi, hfi⟩ := ih hys hm
      exact ⟨i, Nat.lt_succ_of_lt hi, hfi⟩
    · rw [List.mem_singleton.mp hm]
      exact ⟨n, Nat.lt_succ_self n, hy⟩

theorem exOk_bind_pure {x : Except RtError α} {g : α → β} :
    exOk (x >>= fun a => (pure (g a) : Except RtError β)) = exOk x := by
  cases x <;> rfl

theorem exists_ok_iff_exOk {x : Except RtError α} : (∃ a, x = .ok a) ↔ exOk x = true := by
  cases x <;> simp [exOk]

/-!
The constructors of `IOP.cpp` under an all-success oracle, and the
characterization of when construction succeeds.
-/

theorem tlBuild_ok {nl : NTensorLayout} {name : String} {sz : Nat} (h : nl.ok) :
    TensorLayout.build nl name sz = .ok (TensorLayout.parseOk nl name sz) := by
  obtain ⟨h1, h2, h3, h4⟩ := h
  have hd : buildUpTo (fun nth => do
      GROQOK (nl.stDim nth)
      pure (nl.dims nth)) nl.nDims = .ok ((List.range nl.nDims).map nl.dims) :=
    buildUpTo_ok (fun i hi => by
      rw [bind_ok_intro ((GROQOK_eq_ok (u := ())).mpr (h4 i hi))]
      rfl)
  unfold TensorLayout.build
  rw [bind_ok_intro ((GROQOK_eq_ok (u := ())).mpr h1),
    bind_ok_intro ((GROQOK_eq_ok (u := ())).mpr h2),
    bind_ok_intro ((GROQOK_eq_ok (u := ())).mpr h3), bind_ok_intro hd]
  rfl

theorem iodBuild_ok {nd : NIODescriptor} {sz : Nat} (h : nd.ok) :
    IODescriptor.build nd sz = .ok (IODescriptor.parseOk nd sz) := by
  obtain ⟨h1, h2⟩ := h
  have hl : buildUpTo (fun nth => do
      GROQOK (nd.stNthLayout nth)
      GROQOK (nd.layouts nth).stName
      TensorLayout.build (nd.layouts nth) (nd.layouts nth).name sz) nd.nLayouts
      = .ok ((List.range nd.nLayouts).map
          (fun nth => TensorLayout.parseOk (nd.layouts nth) (nd.layouts nth).name sz)) :=
    buildUpTo_ok (fun i hi => by
      obtain ⟨ha, hb, hc⟩ := h2 i hi
      rw [bind_ok_intro ((GROQOK_eq_ok (u := ())).mpr ha),
        bind_ok_intro ((GROQOK_eq_ok (u := ())).mpr hb), tlBuild_ok hc])
  unfold IODescriptor.build
  rw [bind_ok_intro ((GROQOK_eq_ok (u := ())).mpr h1), bind_ok_intro hl]
  rfl

theorem epBuild_ok {ne : NEntryPoint} {name : String} (h : ne.ok) :
    EntryPoint.build ne name = .ok (EntryPoint.parseOk ne name) := by
  obtain ⟨h1, h2, h3, h4, h5, h6⟩ := h
  unfold EntryPoint.build
  rw [bind_ok_intro ((GROQOK_eq_ok (u := ())).mpr h1),
    bind_ok_intro ((GROQOK_eq_ok (u := ())).mpr h2),
    bind_ok_intro ((GROQOK_eq_ok (u := ())).mpr h3),
    bind_ok_intro ((GROQOK_eq_ok (u := ())).mpr h4),
    bind_ok_intro (iodBuild_ok h5), bind_ok_intro (iodBuild_ok h6)]
  rfl

theorem progBuild_ok {np : NProgram} {name : String} (h : np.ok) :
    Program.build np name = .ok (Program.parseOk np name) := by
  obtain ⟨h1, h2⟩ := h
  have hl : buildUpTo (fun nth => do
      GROQOK (np.stNthEp nth)
      GROQOK (np.entrypoints nth).stName
      EntryPoint.build (np.entrypoints nth) (np.entrypoints nth).name) np.nEp
      = .ok ((List.range np.nEp).map
          (fun nth => EntryPoint.parseOk (np.entrypoints nth) (np.entrypoints nth).name)) :=
    buildUpTo_ok (fun i hi => by
      obtain ⟨ha, hb, hc⟩ := h2 i hi
      rw [bind_ok_intro ((GROQOK_eq_ok (u := ())).mpr ha),
        bind_ok_intro ((GROQOK_eq_ok (u := ())).mpr hb), epBuild_ok hc])
  unfold Program.build
  rw [bind_ok_intro ((GROQOK_eq_ok (u := ())).mpr h1), bind_ok_intro hl]
  rfl

theorem iopBuild_ok {ni : NIop} (h : ni.ok) :
    IOP.initTree ni = .ok (IOP.parseOk ni) := by
  obtain ⟨h1, h2, h3⟩ := h
  have hl : buildUpTo (fun nth => do
      GROQOK (ni.stNthProgram nth)
      GROQOK (ni.stProgName nth)
      Program.build (ni.programs nth) (ni.progName nth)) ni.nPrograms
      = .ok ((List.range ni.nPrograms).map
          (fun nth => Program.parseOk (ni.programs nth) (ni.progName nth))) :=
    buildUpTo_ok (fun i hi => by
      obtain ⟨ha, hb, hc⟩ := h3 i hi
      rw [bind_ok_intro ((GROQOK_eq_ok (u := ())).mpr ha),
        bind_ok_intro ((GROQOK_eq_ok (u := ())).mpr hb), progBuild_ok hc])
  unfold IOP.initTree
  rw [bind_ok_intro ((GROQOK_eq_ok (u := ())).mpr h1),
    bind_ok_intro ((GROQOK_eq_ok (u := ())).mpr h2), bind_ok_intro hl]
  rfl

theorem tlBuild_exOk {nl : NTensorLayout} {name : String} {sz : Nat} :
    exOk (TensorLayout.build nl name sz) = true ↔ nl.ok := by
  simp only [TensorLayout.build, NTensorLayout.ok, exOk_bind, exOk_bind_pure,
    GROQOK_eq_ok, buildUpTo_exOk, exOk_GROQOK, exists_const]

theorem iodBuild_exOk {nd : NIODescriptor} {sz : Nat} :
    exOk (IODescriptor.build nd sz) = true ↔ nd.ok := by
  simp only [IODescriptor.build, NIODescriptor.ok, exOk_bind, exOk_bind_pure,
    GROQOK_eq_ok, buildUpTo_exOk, exOk_GROQOK, tlBuild_exOk, exists_const]

theorem epBuild_exOk {ne : NEntryPoint} {name : String} :
    exOk (EntryPoint.build ne name) = true ↔ ne.ok := by
  simp only [EntryPoint.build, NEntryPoint.ok, exOk_bind, exOk_bind_pure,
    GROQOK_eq_ok, iodBuild_exOk, exists_const, exists_and_right,
    exists_ok_iff_exOk]

theorem progBuild_exOk {np : NProgram} {name : String} :
    exOk (Program.build np name) = true ↔ np.ok := by
  simp only [Program.build, NProgram.ok, exOk_bind, exOk_bind_pure,
    GROQOK_eq_ok, buildUpTo_exOk, epBuild_exOk, exists_const]

theorem iopBuild_exOk {ni : NIop} :
    exOk (IOP.initTree ni) = true ↔ ni.ok := by
  simp only [IOP.initTree, NIop.ok, exOk_bind, exOk_bind_pure,
    GROQOK_eq_ok, buildUpTo_exOk, progBuild_exOk, exists_const]

theorem tlBuild_iodSize {nl : NTensorLayout} {name : String} {sz : Nat}
    {L : TensorLayout} (h : TensorLayout.build nl name sz = .ok L) :
    L.getIoSize = sz := by
  unfold TensorLayout.build at h
  obtain ⟨-, -, h⟩ := bind_ok_elim h
  obtain ⟨-, -, h⟩ := bind_ok_elim h
  obtain ⟨-, -, h⟩ := bind_ok_elim h
  obtain ⟨dims, -, h⟩ := bind_ok_elim h
  cases h
  rfl

/-- C6. If every external parse call succeeds reporting `P` programs, per
program `E` entrypoints and per descriptor `N` tensor layouts, the parsed
tree exposes exactly those counts, in declaration order: the `i`-th entry of
each sequence is the parse of the `i`-th native child. -/
theorem C6_parse_completeness (ni : NIop) (h : ni.ok) :
    IOP.initTree ni = .ok (IOP.parseOk ni) ∧
    (IOP.parseOk ni).programs.length = ni.nPrograms ∧
    (∀ p, p < ni.nPrograms →
      (IOP.parseOk ni).programs[p]? =
        some (Program.parseOk (ni.programs p) (ni.progName p))) ∧
    (∀ np nm, (Program.parseOk np nm).entrypoints.length = np.nEp) ∧
    (∀ np nm e, e < np.nEp →
      (Program.parseOk np nm).entrypoints[e]? =
        some (EntryPoint.parseOk (np.entrypoints e) (np.entrypoints e).name)) ∧
    (∀ ne nm, (EntryPoint.parseOk ne nm).input =
        IODescriptor.parseOk ne.inputIod ne.inputSize ∧
      (EntryPoint.parseOk ne nm).output =
        IODescriptor.parseOk ne.outputIod ne.outputSize) ∧
    (∀ nd s, (IODescriptor.parseOk nd s).layouts.length = nd.nLayouts) ∧
    (∀ nd s k, k < nd.nLayouts →
      (IODescriptor.parseOk nd s).layouts[k]? =
        some (TensorLayout.parseOk (nd.layouts k) (nd.layouts k).name s)) := by
  refine ⟨iopBuild_ok h, ?_, ?_, ?_, ?_, ?_, ?_, ?_⟩
  · simp [IOP.parseOk]
  · intro p hp
    simp [IOP.parseOk, List.getElem?_map, List.getElem?_range, hp]
  · intro np nm
    simp [Program.parseOk]
  · intro np nm e he
    simp [Program.parseOk, List.getElem?_map, List.getElem?_range, he]
  · intro ne nm
    exact ⟨rfl, rfl⟩
  · intro nd s
    simp [IODescriptor.parseOk]
  · intro nd s k hk
    simp [IODescriptor.parseOk, List.getElem?_map, List.getElem?_range, hk]

/-- C6 witness: the one-program sample container parses completely. -/
theorem C6_parse_completeness_witness :
    NIop.ok goodNi ∧ IOP.initTree goodNi = .ok (IOP.parseOk goodNi) ∧
    (IOP.parseOk goodNi).programs.length = 1 := by
  have h := C6_parse_completeness goodNi (by decide)
  exact ⟨by decide, h.1, h.2.1⟩

/-- C7. IOP construction yields an error (and thus exposes no object graph
at all, partial or otherwise) exactly when some external parse call it
issues reports a non-success status. -/
theorem C7_parse_failure_aborts (ni : NIop) :
    (¬ ni.ok → ∃ e, IOP.initTree ni = .error e) ∧
    ((∃ e, IOP.initTree ni = .error e) → ¬ ni.ok) := by
  constructor
  · intro h
    refine error_of_not_exOk ?_
    intro hx
    exact h (iopBuild_exOk.mp hx)
  · rintro ⟨e, he⟩ hok
    have hx := iopBuild_exOk.mpr hok
    rw [he] at hx
    simp [exOk] at hx

/-- C7 witness: the sample container whose root init call fails parses to an
error. -/
theorem C7_parse_failure_aborts_witness :
    ∃ e, IOP.initTree badNi = .error e :=
  (C7_parse_failure_aborts badNi).1 (by decide)

/-- C9. Every tensor layout of a successfully parsed IODescriptor reports
as its `getIoSize` the descriptor's own aggregate size `getSize` (which is
the size the descriptor was constructed with), not a per-tensor size. -/
theorem C9_ioSize_is_descriptor_size (nd : NIODescriptor) (s : Nat)
    (d : IODescriptor) (h : IODescriptor.build nd s = .ok d) :
    d.getSize = s ∧ ∀ L ∈ d.layouts, L.getIoSize = d.getSize := by
  unfold IODescriptor.build at h
  obtain ⟨-, -, h⟩ := bind_ok_elim h
  obtain ⟨xs, hxs, h2⟩ := bind_ok_elim h
  cases h2
  refine ⟨rfl, ?_⟩
  intro L hL
  obtain ⟨i, hi, hfi⟩ := buildUpTo_mem hxs hL
  obtain ⟨-, -, hfi⟩ := bind_ok_elim hfi
  obtain ⟨-, -, hfi⟩ := bind_ok_elim hfi
  exact tlBuild_iodSize hfi

/-- C9 witness: in the parsed sample descriptor of aggregate size 4, the
first tensor layout reports IO size 4. -/
theorem C9_ioSize_is_descriptor_size_witness :
    (TensorLayout.parseOk (sampleNd.layouts 0) (sampleNd.layouts 0).name 4).getIoSize
      = (IODescriptor.parseOk sampleNd 4).getSize :=
  (C9_ioSize_is_descriptor_size sampleNd 4 (IODescriptor.parseOk sampleNd 4)
    (iodBuild_ok (by decide))).2 _ (by decide)

/-- C1. `fromHost` fails with a size-mismatch error unless
`inputSize = hostSize` and `outputSize = ioSize`, and `toHost` fails unless
`inputSize = ioSize` and `outputSize = hostSize`; on such a failure the
destination buffer is unchanged and the external conversion capability was
never called; with matching sizes the conversion is called and a success
status from it makes the call succeed. -/
theorem C1_transcode_size_contract (L : TensorLayout) (cap : ConvCap)
    (input dest : List Nat) (inputSize outputSize : Nat) :
    (¬(inputSize = L.getHostSize ∧ outputSize = L.getIoSize) →
      ∃ e, L.fromHost cap input inputSize dest outputSize =
            ⟨.error e, dest, false⟩ ∧ e.isSizeMismatch = true) ∧
    ((inputSize = L.getHostSize ∧ outputSize = L.getIoSize) →
      (L.fromHost cap input inputSize dest outputSize).convCalled = true ∧
      ((cap.fromHostConv L input inputSize outputSize).1 = 0 →
        L.fromHost cap input inputSize dest outputSize =
          ⟨.ok (), (cap.fromHostConv L input inputSize outputSize).2, true⟩)) ∧
    (¬(inputSize = L.getIoSize ∧ outputSize = L.getHostSize) →
      ∃ e, L.toHost cap input inputSize dest outputSize =
            ⟨.error e, dest, false⟩ ∧ e.isSizeMismatch = true) ∧
    ((inputSize = L.getIoSize ∧ outputSize = L.getHostSize) →
      (L.toHost cap input inputSize dest outputSize).convCalled = true ∧
      ((cap.toHostConv L input inputSize outputSize).1 = 0 →
        L.toHost cap input inputSize dest outputSize =
          ⟨.ok (), (cap.toHostConv L input inputSize outputSize).2, true⟩)) := by
  refine ⟨?_, ?_, ?_, ?_⟩
  · intro h
    by_cases h1 : inputSize = L.getHostSize
    · by_cases h2 : outputSize = L.getIoSize
      · exact absurd ⟨h1, h2⟩ h
      · exact ⟨.outputSizeMismatch L.getIoSize outputSize, by
          simp [TensorLayout.fromHost, TensorLayout.fromHostCheck, h1, h2], rfl⟩
    · exact ⟨.inputSizeMismatch L.getHostSize inputSize, by
        simp [TensorLayout.fromHost, TensorLayout.fromHostCheck, h1], rfl⟩
  · rintro ⟨h1, h2⟩
    subst h1
    subst h2
    constructor
    · simp [TensorLayout.fromHost, TensorLayout.fromHostCheck, GROQOK]
      split <;> rfl
    · intro hs
      simp [TensorLayout.fromHost, TensorLayout.fromHostCheck, GROQOK, hs]
  · intro h
    by_cases h1 : inputSize = L.getIoSize
    · by_cases h2 : outputSize = L.getHostSize
      · exact absurd ⟨h1, h2⟩ h
      · exact ⟨.sizeMismatchPlain, by
          simp [TensorLayout.toHost, TensorLayout.toHostCheck, h1, h2], rfl⟩
    · exact ⟨.sizeMismatchPlain, by
        simp [TensorLayout.toHost, TensorLayout.toHostCheck, h1], rfl⟩
  · rintro ⟨h1, h2⟩
    subst h1
    subst h2
    constructor
    · simp [TensorLayout.toHost, TensorLayout.toHostCheck, GROQOK]
      split <;> rfl
    · intro hs
      simp [TensorLayout.toHost, TensorLayout.toHostCheck, GROQOK, hs]

/-!
Trace facts about the `SimpleRunner::invoke` protocol.
-/

theorem inputStep_trace_cases (r : SimpleRunner) (o : DevOracle) (i : Nat) :
    (r.inputStep o i).2 = [] ∨ (r.inputStep o i).2 = [Ev.getInputHandle i] ∨
    (r.inputStep o i).2 = [Ev.getInputHandle i, Ev.fromHostCall i] := by
  unfold SimpleRunner.inputStep
  split
  · split
    · tauto
    · split
      · tauto
      · split <;> tauto
  · tauto

theorem outputStep_trace_cases (r : SimpleRunner) (o : DevOracle) (i : Nat) :
    (r.outputStep o i).2 = [] ∨ (r.outputStep o i).2 = [Ev.getOutputHandle i] ∨
    (r.outputStep o i).2 = [Ev.getOutputHandle i, Ev.toHostCall i] := by
  unfold SimpleRunner.outputStep
  split
  · split
    · tauto
    · split
      · tauto
      · split <;> tauto
  · tauto

theorem inputStep_events {r : SimpleRunner} {o : DevOracle} {i : Nat} :
    ∀ e ∈ (r.inputStep o i).2, e = Ev.getInputHandle i ∨ e = Ev.fromHostCall i := by
  intro e he
  rcases inputStep_trace_cases r o i with h | h | h <;> rw [h] at he <;> simp at he <;>
    tauto

theorem outputStep_events {r : SimpleRunner} {o : DevOracle} {i : Nat} :
    ∀ e ∈ (r.outputStep o i).2, e = Ev.getOutputHandle i ∨ e = Ev.toHostCall i := by
  intro e he
  rcases outputStep_trace_cases r o i with h | h | h <;> rw [h] at he <;> simp at he <;>
    tauto

theorem inputPhase_phase0 {r : SimpleRunner} {o : DevOracle} :
    ∀ l, ∀ e ∈ (r.inputPhase o l).2, e.phase = 0 := by
  intro l
  induction l with
  | nil => intro e he; simp [SimpleRunner.inputPhase] at he
  | cons i rest ih =>
    intro e he
    rw [SimpleRunner.inputPhase] at he
    rcases hS : (r.inputStep o i).1 with eS | uS
    · rw [hS] at he
      simp only [] at he
      rcases inputStep_events e he with h | h <;> rw [h] <;> rfl
    · cases uS
      rw [hS] at he
      simp only [] at he
      rcases List.mem_append.mp he with h | h
      · rcases inputStep_events e h with h2 | h2 <;> rw [h2] <;> rfl
      · exact ih e h

theorem outputPhase_phase3 {r : SimpleRunner} {o : DevOracle} :
    ∀ l, ∀ e ∈ (r.outputPhase o l).2, e.phase = 3 := by
  intro l
  induction l with
  | nil => intro e he; simp [SimpleRunner.outputPhase] at he
  | cons i rest ih =>
    intro e he
    rw [SimpleRunner.outputPhase] at he
    rcases hS : (r.outputStep o i).1 with eS | uS
    · rw [hS] at he
      simp only [] at he
      rcases outputStep_events e he with h | h <;> rw [h] <;> rfl
    · cases uS
      rw [hS] at he
      simp only [] at he
      rcases List.mem_append.mp he with h | h
      · rcases outputStep_events e h with h2 | h2 <;> rw [h2] <;> rfl
      · exact ih e h

theorem invoke_cases (r : SimpleRunner) (o : DevOracle) :
    (∃ e, (r.inputPhase o (List.range r.inputLayouts.length)).1 = .error e ∧
      r.invoke o = (.error e, (r.inputPhase o (List.range r.inputLayouts.length)).2)) ∨
    ((r.inputPhase o (List.range r.inputLayouts.length)).1 = .ok () ∧
      ((o.invokeSt ≠ 0 ∧
        r.invoke o = (.error (.groqError o.invokeSt),
          (r.inputPhase o (List.range r.inputLayouts.length)).2 ++ [.invokeDev])) ∨
      (o.invokeSt = 0 ∧ o.waitSt ≠ 0 ∧
        r.invoke o = (.error (.groqError o.waitSt),
          (r.inputPhase o (List.range r.inputLayouts.length)).2 ++
            [.invokeDev, .waitForCompletion 30000])) ∨
      (o.invokeSt = 0 ∧ o.waitSt = 0 ∧
        r.invoke o = ((r.outputPhase o (List.range r.outputLayouts.length)).1,
          (r.inputPhase o (List.range r.inputLayouts.length)).2 ++
            [.invokeDev, .waitForCompletion 30000] ++
            (r.outputPhase o (List.range r.outputLayouts.length)).2)))) := by
  rcases hT : (r.inputPhase o (List.range r.inputLayouts.length)).1 with e | u
  · exact .inl ⟨e, rfl, by simp [SimpleRunner.invoke, hT]⟩
  · cases u
    by_cases hi : o.invokeSt = 0
    · by_cases hw : o.waitSt = 0
      · exact .inr ⟨rfl, .inr (.inr ⟨hi, hw,
          by simp [SimpleRunner.invoke, hT, hi, hw]⟩)⟩
      · exact .inr ⟨rfl, .inr (.inl ⟨hi, hw,
          by simp [SimpleRunner.invoke, hT, hi, hw]⟩)⟩
    · exact .inr ⟨rfl, .inl ⟨hi, by simp [SimpleRunner.invoke, hT, hi]⟩⟩

theorem pairwise_phase_const {l : List Ev} {c : Nat} (h : ∀ e ∈ l, e.phase = c) :
    l.Pairwise (fun a b => a.phase ≤ b.phase) := by
  induction l with
  | nil => exact List.Pairwise.nil
  | cons x xs ih =>
    refine List.Pairwise.cons ?_ (ih (fun e he => h e (List.mem_cons_of_mem _ he)))
    intro b hb
    rw [h x (List.mem_cons_self _ _), h b (List.mem_cons_of_mem _ hb)]

/-- C2. Within one `invoke`, the trace of external calls is ordered by
protocol phase: every input transcode precedes the execute call, which
precedes the completion wait, which precedes every output transcode; and if
any output transcode occurs at all, both the execute call and the wait were
issued and reported success. -/
theorem C2_invoke_ordering (r : SimpleRunner) (o : DevOracle) :
    (r.invoke o).2.Pairwise (fun a b => a.phase ≤ b.phase) ∧
    ((∃ i, Ev.toHostCall i ∈ (r.invoke o).2) →
      o.invokeSt = 0 ∧ o.waitSt = 0 ∧ Ev.invokeDev ∈ (r.invoke o).2 ∧
        Ev.waitForCompletion 30000 ∈ (r.invoke o).2) := by
  have hin : ∀ e ∈ (r.inputPhase o (List.range r.inputLayouts.length)).2,
      Ev.phase e = 0 := fun e he => inputPhase_phase0 _ e he
  have hout : ∀ e ∈ (r.outputPhase o (List.range r.outputLayouts.length)).2,
      Ev.phase e = 3 := fun e he => outputPhase_phase3 _ e he
  rcases invoke_cases r o with ⟨e, hT, hinv⟩ | ⟨hT, hc⟩
  · rw [hinv]
    refine ⟨pairwise_phase_const hin, ?_⟩
    rintro ⟨i, hi⟩
    have h0 := hin _ hi
    simp [Ev.phase] at h0
  · rcases hc with ⟨hi0, hinv⟩ | ⟨hi0, hw0, hinv⟩ | ⟨hi0, hw0, hinv⟩
    · rw [hinv]
      constructor
      · refine List.pairwise_append.mpr ⟨pairwise_phase_const hin, by decide, ?_⟩
        intro a ha b hb
        rw [hin a ha]
        exact Nat.zero_le _
      · rintro ⟨i, hi⟩
        rcases List.mem_append.mp hi with h | h
        · have h0 := hin _ h
          simp [Ev.phase] at h0
        · simp at h
    · rw [hinv]
      constructor
      · refine List.pairwise_append.mpr ⟨pairwise_phase_const hin, by decide, ?_⟩
        intro a ha b hb
        rw [hin a ha]
        exact Nat.zero_le _
      · rintro ⟨i, hi⟩
        rcases List.mem_append.mp hi with h | h
        · have h0 := hin _ h
          simp [Ev.phase] at h0
        · simp at h
    · rw [hinv]
      constructor
      · refine List.pairwise_append.mpr ⟨?_, pairwise_phase_const hout, ?_⟩
        · refine List.pairwise_append.mpr ⟨pairwise_phase_const hin, by decide, ?_⟩
          intro a ha b hb
          rw [hin a ha]
          exact Nat.zero_le _
        · intro a ha b hb
          rw [hout b hb]
          rcases List.mem_append.mp ha with h | h
          · rw [hin a h]
            decide
          · simp at h
            rcases h with rfl | rfl <;> decide
      · rintro ⟨i, hi⟩
        refine ⟨hi0, hw0, ?_, ?_⟩ <;> simp

/-- C2 witness: the fully bound sample runner with the all-success oracle
produces a phase-ordered trace containing execute, wait and an output
transcode. -/
theorem C2_invoke_ordering_witness :
    (boundRunner.invoke allOkOracle).2.Pairwise (fun a b => a.phase ≤ b.phase) ∧
    (allOkOracle.invokeSt = 0 ∧ allOkOracle.waitSt = 0 ∧
      Ev.invokeDev ∈ (boundRunner.invoke allOkOracle).2 ∧
      Ev.waitForCompletion 30000 ∈ (boundRunner.invoke allOkOracle).2) := by
  have h := C2_invoke_ordering boundRunner allOkOracle
  exact ⟨h.1, h.2 ⟨0, by decide⟩⟩

theorem inputStep_bad {r : SimpleRunner} {o : DevOracle} {i : Nat}
    {L : TensorLayout} {sz : Nat} (hL : r.inputLayouts[i]? = some L)
    (hs : r.inputSizes[i]? = some sz) (hne : sz ≠ L.getHostSize) :
    (∃ e, (r.inputStep o i).1 = .error e) ∧
    Ev.fromHostCall i ∉ (r.inputStep o i).2 := by
  have h1 : listAt r.inputLayouts i = .ok L := by simp [listAt, hL]
  have h3 : listAt r.inputSizes i = .ok sz := by simp [listAt, hs]
  have hchk : L.fromHostCheck sz r.tspInputSize =
      .error (.inputSizeMismatch L.getHostSize sz) := by
    simp [TensorLayout.fromHostCheck, hne]
  rcases h2 : listAt r.inputBuffers i with e2 | buf
  · simp [SimpleRunner.inputStep, h1, h2, h3]
  · by_cases hg : o.getInputHandleSt i = 0 <;>
      simp [SimpleRunner.inputStep, h1, h2, h3, hg, hchk]

theorem inputPhase_bad {r : SimpleRunner} {o : DevOracle} {i : Nat}
    {L : TensorLayout} {sz : Nat} (hL : r.inputLayouts[i]? = some L)
    (hs : r.inputSizes[i]? = some sz) (hne : sz ≠ L.getHostSize) :
    ∀ l, i ∈ l → (∃ e, (r.inputPhase o l).1 = .error e) ∧
      Ev.fromHostCall i ∉ (r.inputPhase o l).2 := by
  intro l
  induction l with
  | nil => intro h; simp at h
  | cons j rest ih =>
    intro hmem
    by_cases hji : j = i
    · subst hji
      obtain ⟨⟨e, he⟩, hnm⟩ := inputStep_bad (o := o) hL hs hne
      constructor
      · exact ⟨e, by simp [SimpleRunner.inputPhase, he]⟩
      · simp only [SimpleRunner.inputPhase, he]
        exact hnm
    · have hmem2 : i ∈ rest := by
        rcases List.mem_cons.mp hmem with h | h
        · exact absurd h.symm hji
        · exact h
      rcases hS : (r.inputStep o j).1 with eS | uS
      · constructor
        · exact ⟨eS, by simp [SimpleRunner.inputPhase, hS]⟩
        · simp only [SimpleRunner.inputPhase, hS]
          intro habs
          rcases inputStep_events _ habs with h | h <;> simp at h
          exact hji h.symm
      · cases uS
        obtain ⟨⟨e, he⟩, hnm⟩ := ih hmem2
        constructor
        · exact ⟨e, by simp [SimpleRunner.inputPhase, hS, he]⟩
        · simp only [SimpleRunner.inputPhase, hS]
          intro habs
          rcases List.mem_append.mp habs with h | h
          · rcases inputStep_events _ h with h2 | h2 <;> simp at h2
            exact hji h2.symm
          · exact hnm h

/-- C3 counterexample: the constructor-produced runner for the sample
container, with no buffer ever bound, does fail when invoked — the
recorded size 0 of the unbound slot fails `fromHost`'s host-size check —
contradicting the claim that invoking with an unbound tensor does not fail. -/
theorem C3_counterexample :
    SimpleRunner.make (IOP.parseOk goodNi) 0 0 8 8 ⟨0, 0⟩ = .ok freshRunner ∧
    freshRunner.invoke allOkOracle =
      (.error (.inputSizeMismatch 2 0), [.getInputHandle 0]) := by
  exact ⟨by decide, by decide⟩

/-- C3 amended: if input tensor `i` was never bound (its recorded size, 0,
differs from its layout's nonzero host size), `invoke` performs no
conversion call for index `i` — so tensor `i`'s device slot is untouched —
but `invoke` does fail: the size check raises before the execute call, so no
execute and no output transcode occur either. -/
theorem C3_unbound_input (r : SimpleRunner) (o : DevOracle) (i : Nat)
    (L : TensorLayout) (sz : Nat) (hL : r.inputLayouts[i]? = some L)
    (hs : r.inputSizes[i]? = some sz) (hne : sz ≠ L.getHostSize) :
    (∃ e, (r.invoke o).1 = .error e) ∧
    Ev.fromHostCall i ∉ (r.invoke o).2 ∧
    Ev.invokeDev ∉ (r.invoke o).2 ∧
    (∀ j, Ev.toHostCall j ∉ (r.invoke o).2) := by
  have hi : i < r.inputLayouts.length := by
    by_contra hcon
    rw [List.getElem?_eq_none (Nat.le_of_not_lt hcon)] at hL
    cases hL
  have hbad := inputPhase_bad (o := o) hL hs hne (List.range r.inputLayouts.length)
    (List.mem_range.mpr hi)
  rcases invoke_cases r o with ⟨e, hT, hinv⟩ | ⟨hT, hc⟩
  · rw [hinv]
    refine ⟨⟨e, rfl⟩, hbad.2, ?_, ?_⟩
    · intro habs
      have h0 := inputPhase_phase0 _ _ habs
      simp [Ev.phase] at h0
    · intro j habs
      have h0 := inputPhase_phase0 _ _ habs
      simp [Ev.phase] at h0
  · obtain ⟨e, he⟩ := hbad.1
    rw [hT] at he
    cases he

/-- C3 amended witness: the unbound sample runner. -/
theorem C3_unbound_input_witness :
    (∃ e, (freshRunner.invoke allOkOracle).1 = .error e) ∧
    Ev.fromHostCall 0 ∉ (freshRunner.invoke allOkOracle).2 ∧
    Ev.invokeDev ∉ (freshRunner.invoke allOkOracle).2 := by
  have h := C3_unbound_input freshRunner allOkOracle 0
    (TensorLayout.parseOk (sampleNd.layouts 0) (sampleNd.layouts 0).name 8) 0
    (by decide) (by decide) (by decide)
  exact ⟨h.1, h.2.1, h.2.2.1⟩

/-- C10 counterexample: an `invoke` call that aborts during input
transcoding (unbound input slot) issues no execute call at all, so not
every call to `invoke` issues exactly one execute call. -/
theorem C10_counterexample :
    (freshRunner.invoke allOkOracle).2.countP
      (fun e => decide (e = Ev.invokeDev)) = 0 := by
  decide

/-- C10 amended: `invoke` issues at most one execute call — exactly one
when the input-transcode phase raised no error; every completion wait it
issues uses the fixed 30000 ms timeout (no timeout parameter exists in
`invoke`'s interface); and a non-success status from the execute or the
wait makes `invoke` fail with no output transcode. -/
theorem C10_execute_wait (r : SimpleRunner) (o : DevOracle) :
    (r.invoke o).2.countP (fun e => decide (e = Ev.invokeDev)) ≤ 1 ∧
    ((r.inputPhase o (List.range r.inputLayouts.length)).1 = .ok () →
      (r.invoke o).2.countP (fun e => decide (e = Ev.invokeDev)) = 1) ∧
    (∀ t, Ev.waitForCompletion t ∈ (r.invoke o).2 → t = 30000) ∧
    ((o.invokeSt ≠ 0 ∨ o.waitSt ≠ 0) →
      (∃ e, (r.invoke o).1 = .error e) ∧
      ∀ i, Ev.toHostCall i ∉ (r.invoke o).2) := by
  have hin : ∀ e ∈ (r.inputPhase o (List.range r.inputLayouts.length)).2,
      Ev.phase e = 0 := fun e he => inputPhase_phase0 _ e he
  have hout : ∀ e ∈ (r.outputPhase o (List.range r.outputLayouts.length)).2,
      Ev.phase e = 3 := fun e he => outputPhase_phase3 _ e he
  have hcin : (r.inputPhase o (List.range r.inputLayouts.length)).2.countP
      (fun e => decide (e = Ev.invokeDev)) = 0 := by
    rw [List.countP_eq_zero]
    intro a ha
    have h0 := hin a ha
    simp only [decide_eq_true_eq]
    intro habs
    rw [habs] at h0
    simp [Ev.phase] at h0
  have hcout : (r.outputPhase o (List.range r.outputLayouts.length)).2.countP
      (fun e => decide (e = Ev.invokeDev)) = 0 := by
    rw [List.countP_eq_zero]
    intro a ha
    have h0 := hout a ha
    simp only [decide_eq_true_eq]
    intro habs
    rw [habs] at h0
    simp [Ev.phase] at h0
  rcases invoke_cases r o with ⟨e, hT, hinv⟩ | ⟨hT, hc⟩
  · rw [hinv]
    refine ⟨by rw [hcin]; decide, ?_, ?_, ?_⟩
    · intro hok
      rw [hT] at hok
      cases hok
    · intro t ht
      have h0 := hin _ ht
      simp [Ev.phase] at h0
    · intro hbad
      refine ⟨⟨e, rfl⟩, ?_⟩
      intro i habs
      have h0 := hin _ habs
      simp [Ev.phase] at h0
  · rcases hc with ⟨hi0, hinv⟩ | ⟨hi0, hw0, hinv⟩ | ⟨hi0, hw0, hinv⟩
    · rw [hinv]
      refine ⟨?_, ?_, ?_, ?_⟩
      · rw [List.countP_append, hcin]
        decide
      · intro hok
        rw [List.countP_append, hcin]
        decide
      · intro t ht
        rcases List.mem_append.mp ht with h | h
        · have h0 := hin _ h
          simp [Ev.phase] at h0
        · simp at h
      · intro hbad
        refine ⟨⟨.groqError o.invokeSt, rfl⟩, ?_⟩
        intro i habs
        rcases List.mem_append.mp habs with h | h
        · have h0 := hin _ h
          simp [Ev.phase] at h0
        · simp at h
    · rw [hinv]
      refine ⟨?_, ?_, ?_, ?_⟩
      · rw [List.countP_append, hcin]
        decide
      · intro hok
        rw [List.countP_append, hcin]
        decide
      · intro t ht
        rcases List.mem_append.mp ht with h | h
        · have h0 := hin _ h
          simp [Ev.phase] at h0
        · simp at h
          exact h
      · intro hbad
        refine ⟨⟨.groqError o.waitSt, rfl⟩, ?_⟩
        intro i habs
        rcases List.mem_append.mp habs with h | h
        · have h0 := hin _ h
          simp [Ev.phase] at h0
        · simp at h
    · rw [hinv]
      refine ⟨?_, ?_, ?_, ?_⟩
      · rw [List.countP_append, List.countP_append, hcin, hcout]
        decide
      · intro hok
        rw [List.countP_append, List.countP_append, hcin, hcout]
        decide
      · intro t ht
        rcases List.mem_append.mp ht with h | h
        · rcases List.mem_append.mp h with h2 | h2
          · have h0 := hin _ h2
            simp [Ev.phase] at h0
          · simp at h2
            exact h2
        · have h0 := hout _ h
          simp [Ev.phase] at h0
      · intro hbad
        rcases hbad with hb | hb
        · exact absurd hi0 hb
        · exact absurd hw0 hb

/-- C10 amended witness: the bound sample runner issues exactly one execute
call under the all-success oracle, and fails without output transcodes when
the execute call reports status 5. -/
theorem C10_execute_wait_witness :
    (boundRunner.invoke allOkOracle).2.countP
      (fun e => decide (e = Ev.invokeDev)) = 1 ∧
    (∃ e, (boundRunner.invoke failOracle).1 = .error e) := by
  refine ⟨(C10_execute_wait boundRunner allOkOracle).2.1 (by decide), ?_⟩
  exact ((C10_execute_wait boundRunner failOracle).2.2.2 (.inl (by decide))).1

/-- The sample conversion capability is exactly invertible on buffers of the
host size. -/
theorem sampleCap_roundTrip : RoundTripCap sampleCap := by
  intro L B hB h1 h2
  simp only [sampleCap]
  rw [← hB, List.take_left]

/-- C8. Host-to-device-to-host transcoding is the identity: for any
conversion capability whose device transform is exactly invertible (the
spec's stated property of the external conversion), a buffer of host size
pushed through `fromHost` and pulled back through `toHost` comes back
unchanged whenever both calls succeed. -/
theorem C8_round_trip (cap : ConvCap) (h : RoundTripCap cap) (L : TensorLayout)
    (B dest dest2 : List Nat) (hB : B.length = L.getHostSize)
    (h1 : (L.fromHost cap B L.getHostSize dest L.getIoSize).result = .ok ())
    (h2 : (L.toHost cap (L.fromHost cap B L.getHostSize dest L.getIoSize).dest
        L.getIoSize dest2 L.getHostSize).result = .ok ()) :
    (L.toHost cap (L.fromHost cap B L.getHostSize dest L.getIoSize).dest
        L.getIoSize dest2 L.getHostSize).dest = B := by
  by_cases hf : (cap.fromHostConv L B L.getHostSize L.getIoSize).1 = 0
  · have hd : (L.fromHost cap B L.getHostSize dest L.getIoSize).dest =
        (cap.fromHostConv L B L.getHostSize L.getIoSize).2 := by
      simp [TensorLayout.fromHost, TensorLayout.fromHostCheck, GROQOK, hf]
    rw [hd] at h2 ⊢
    by_cases ht : (cap.toHostConv L (cap.fromHostConv L B L.getHostSize L.getIoSize).2
        L.getIoSize L.getHostSize).1 = 0
    · have := h L B hB hf ht
      simpa [TensorLayout.toHost, TensorLayout.toHostCheck, GROQOK, ht] using this
    · simp [TensorLayout.toHost, TensorLayout.toHostCheck, GROQOK, ht] at h2
  · simp [TensorLayout.fromHost, TensorLayout.fromHostCheck, GROQOK, hf] at h1

/-- C8 witness: a concrete two-byte buffer survives the round trip through
the sample capability. -/
theorem C8_round_trip_witness :
    (sampleLayout.toHost sampleCap
        (sampleLayout.fromHost sampleCap [1, 2] sampleLayout.getHostSize
          [0, 0, 0, 0] sampleLayout.getIoSize).dest
        sampleLayout.getIoSize [9, 9] sampleLayout.getHostSize).dest = [1, 2] :=
  C8_round_trip sampleCap sampleCap_roundTrip sampleLayout [1, 2] [0, 0, 0, 0]
    [9, 9] (by decide) (by decide) (by decide)

/-- C4 counterexample: two `toHost` calls with different wrong input sizes
throw one and the same error value, whose message is the bare
`"Size mismatch"` and which carries no expected/actual sizes — so the
SizeMismatch raised by `toHost` does not report expected vs. actual size. -/
theorem C4_counterexample :
    (sampleLayout.toHost sampleCap [1] 3 [9, 9] 2).result =
      .error .sizeMismatchPlain ∧
    (sampleLayout.toHost sampleCap [1] 7 [9, 9] 2).result =
      .error .sizeMismatchPlain ∧
    RtError.sizeInfo .sizeMismatchPlain = none ∧
    RtError.message .sizeMismatchPlain = "Size mismatch" := by
  refine ⟨by decide, by decide, rfl, rfl⟩

/-- C4 amended: the SizeMismatch errors raised by `fromHost`,
`addInputBuffer` and `addOutputBuffer` report both the expected and the
actual byte size; the one raised by `toHost` reports neither. -/
theorem C4_size_reporting (L : TensorLayout) (cap : ConvCap)
    (input dest : List Nat) (inputSize outputSize : Nat) (r : SimpleRunner)
    (buffer size index : Nat) :
    (inputSize ≠ L.getHostSize →
      (L.fromHost cap input inputSize dest outputSize).result =
        .error (.inputSizeMismatch L.getHostSize inputSize) ∧
      RtError.sizeInfo (.inputSizeMismatch L.getHostSize inputSize) =
        some (L.getHostSize, inputSize)) ∧
    (inputSize = L.getHostSize → outputSize ≠ L.getIoSize →
      (L.fromHost cap input inputSize dest outputSize).result =
        .error (.outputSizeMismatch L.getIoSize outputSize) ∧
      RtError.sizeInfo (.outputSizeMismatch L.getIoSize outputSize) =
        some (L.getIoSize, outputSize)) ∧
    (∀ Lx, r.inputLayouts[index]? = some Lx → size ≠ Lx.getHostSize →
      (r.addInputBuffer buffer size index).1 =
        .error (.badDataSize Lx.getHostSize size) ∧
      RtError.sizeInfo (.badDataSize Lx.getHostSize size) =
        some (Lx.getHostSize, size)) ∧
    (∀ Lx, r.outputLayouts[index]? = some Lx → size ≠ Lx.getHostSize →
      (r.addOutputBuffer buffer size index).1 =
        .error (.badDataSize Lx.getHostSize size) ∧
      RtError.sizeInfo (.badDataSize Lx.getHostSize size) =
        some (Lx.getHostSize, size)) ∧
    (∀ s1 s2, ¬(s1 = L.getIoSize ∧ s2 = L.getHostSize) →
      ∃ e, (L.toHost cap input s1 dest s2).result = .error e ∧
        RtError.sizeInfo e = none) := by
  refine ⟨?_, ?_, ?_, ?_, ?_⟩
  · intro h
    exact ⟨by simp [TensorLayout.fromHost, TensorLayout.fromHostCheck, h], rfl⟩
  · intro h1 h2
    exact ⟨by simp [TensorLayout.fromHost, TensorLayout.fromHostCheck, h1, h2], rfl⟩
  · intro Lx hLx hne
    refine ⟨?_, rfl⟩
    simp [SimpleRunner.addInputBuffer, listAt, hLx, hne]
  · intro Lx hLx hne
    refine ⟨?_, rfl⟩
    simp [SimpleRunner.addOutputBuffer, listAt, hLx, hne]
  · intro s1 s2 h
    by_cases h1 : s1 = L.getIoSize
    · by_cases h2 : s2 = L.getHostSize
      · exact absurd ⟨h1, h2⟩ h
      · exact ⟨.sizeMismatchPlain,
          by simp [TensorLayout.toHost, TensorLayout.toHostCheck, h1, h2], rfl⟩
    · exact ⟨.sizeMismatchPlain,
        by simp [TensorLayout.toHost, TensorLayout.toHostCheck, h1], rfl⟩

/-- C4 amended witness: concrete calls exercising each reporting case. -/
theorem C4_size_reporting_witness :
    (sampleLayout.fromHost sampleCap [1] 1 [9, 9, 9, 9] 4).result =
      .error (.inputSizeMismatch 2 1) ∧
    (boundRunner.addInputBuffer 77 5 0).1 = .error (.badDataSize 2 5) ∧
    (boundRunner.addOutputBuffer 77 5 0).1 = .error (.badDataSize 4 5) := by
  have h := C4_size_reporting sampleLayout sampleCap [1] [9, 9, 9, 9] 1 4
    boundRunner 77 5 0
  refine ⟨(h.1 (by decide)).1, ?_, ?_⟩
  · have h2 := (h.2.2.1 sampleLin (by decide) (by decide)).1
    exact h2
  · have h3 := (h.2.2.2.1 sampleLout (by decide) (by decide)).1
    exact h3

/-- C5. `addInputBuffer`/`addOutputBuffer`: an index at or beyond the tensor
count fails with the out-of-range error of the bounds-checked accessor; an
in-range index with a size other than that tensor's host size fails with the
size-mismatch error and leaves the recorded bindings unchanged; an in-range
index with the exact host size succeeds and records exactly the pointer and
the size at that index. -/
theorem C5_bind_contract (r : SimpleRunner) (buffer size index : Nat) :
    (r.inputLayouts.length ≤ index →
      r.addInputBuffer buffer size index = (.error .outOfRange, r)) ∧
    (∀ L, r.inputLayouts[index]? = some L → size ≠ L.getHostSize →
      r.addInputBuffer buffer size index =
        (.error (.badDataSize L.getHostSize size), r)) ∧
    (∀ L, r.inputLayouts[index]? = some L → size = L.getHostSize →
      index < r.inputBuffers.length → index < r.inputSizes.length →
      r.addInputBuffer buffer size index =
        (.ok (), { r with
          inputBuffers := r.inputBuffers.set index (some buffer)
          inputSizes := r.inputSizes.set index size })) ∧
    (r.outputLayouts.length ≤ index →
      r.addOutputBuffer buffer size index = (.error .outOfRange, r)) ∧
    (∀ L, r.outputLayouts[index]? = some L → size ≠ L.getHostSize →
      r.addOutputBuffer buffer size index =
        (.error (.badDataSize L.getHostSize size), r)) ∧
    (∀ L, r.outputLayouts[index]? = some L → size = L.getHostSize →
      index < r.outputBuffers.length → index < r.outputSizes.length →
      r.addOutputBuffer buffer size index =
        (.ok (), { r with
          outputBuffers := r.outputBuffers.set index (some buffer)
          outputSizes := r.outputSizes.set index size })) := by
  refine ⟨?_, ?_, ?_, ?_, ?_, ?_⟩
  · intro h
    have hn : r.inputLayouts[index]? = none := List.getElem?_eq_none h
    simp [SimpleRunner.addInputBuffer, listAt, hn]
  · intro L hL hne
    simp [SimpleRunner.addInputBuffer, listAt, hL, hne]
  · intro L hL heq h1 h2
    have hb : r.inputBuffers[index]? = some (r.inputBuffers[index]) :=
      List.getElem?_eq_getElem h1
    have hs : r.inputSizes[index]? = some (r.inputSizes[index]) :=
      List.getElem?_eq_getElem h2
    simp [SimpleRunner.addInputBuffer, listAt, hL, heq, hb, hs]
  · intro h
    have hn : r.outputLayouts[index]? = none := List.getElem?_eq_none h
    simp [SimpleRunner.addOutputBuffer, listAt, hn]
  · intro L hL hne
    simp [SimpleRunner.addOutputBuffer, listAt, hL, hne]
  · intro L hL heq h1 h2
    have hb : r.outputBuffers[index]? = some (r.outputBuffers[index]) :=
      List.getElem?_eq_getElem h1
    have hs : r.outputSizes[index]? = some (r.outputSizes[index]) :=
      List.getElem?_eq_getElem h2
    simp [SimpleRunner.addOutputBuffer, listAt, hL, heq, hb, hs]

/-- C5 witness: out-of-range, wrong-size and correct bindings on the sample
runner. -/
theorem C5_bind_contract_witness :
    boundRunner.addInputBuffer 77 2 3 = (.error .outOfRange, boundRunner) ∧
    boundRunner.addInputBuffer 77 9 0 =
      (.error (.badDataSize 2 9), boundRunner) ∧
    boundRunner.addInputBuffer 77 2 0 =
      (.ok (), { boundRunner with inputBuffers := [some 77], inputSizes := [2] }) := by
  have h := C5_bind_contract boundRunner 77 2 3
  have h9 := C5_bind_contract boundRunner 77 9 0
  have h0 := C5_bind_contract boundRunner 77 2 0
  refine ⟨h.1 (by decide), ?_, ?_⟩
  · have := h9.2.1 sampleLin (by decide) (by decide)
    simpa using this
  · have := h0.2.2.1 sampleLin (by decide) (by decide) (by decide) (by decide)
    simpa [boundRunner] using this

/-- C1 witness: concrete mismatched and matched transcode calls. -/
theorem C1_transcode_size_contract_witness :
    (sampleLayout.fromHost sampleCap [1, 2, 3] 3 [9, 9, 9, 9] 4).convCalled = false ∧
    sampleLayout.fromHost sampleCap [1, 2] 2 [9, 9, 9, 9] 4 =
      ⟨.ok (), [1, 2, 0, 0], true⟩ ∧
    (sampleLayout.toHost sampleCap [1, 2, 3] 3 [9, 9] 2).convCalled = false ∧
    sampleLayout.toHost sampleCap [1, 2, 0, 0] 4 [9, 9] 2 = ⟨.ok (), [1, 2], true⟩ := by
  have hmm := C1_transcode_size_contract sampleLayout sampleCap [1, 2, 3] [9, 9, 9, 9] 3 4
  have hok := C1_transcode_size_contract sampleLayout sampleCap [1, 2] [9, 9, 9, 9] 2 4
  have hmt := C1_transcode_size_contract sampleLayout sampleCap [1, 2, 3] [9, 9] 3 2
  have hot := C1_transcode_size_contract sampleLayout sampleCap [1, 2, 0, 0] [9, 9] 4 2
  refine ⟨?_, ?_, ?_, ?_⟩
  · obtain ⟨e, he, -⟩ := hmm.1 (by decide)
    rw [he]
  · have h := (hok.2.1 (by decide)).2 (by decide)
    simpa [sampleCap, sampleLayout] using h
  · obtain ⟨e, he, -⟩ := hmt.2.2.1 (by decide)
    rw [he]
  · have h := (hot.2.2.2 (by decide)).2 (by decide)
    simpa [sampleCap, sampleLayout] using h

end Groq
